import Mathlib

/-
Verification of the node-and-inference core in astroid/tree/node_classes.py.

The embedding models the data and operations that the checked claims exercise:
constant nodes, literal sequence containers (List and Tuple), mapping literals
(Dict) with unpack markers, slice nodes, the Unknown placeholder, generic
expression nodes, the getitem helpers, block-range queries on If and TryExcept
nodes, the type_errors filters, and the comprehension filtered-statements step.

Conventions of the embedding:
- source exceptions become values of AstErr carried in Except;
- the external inference-context token is opaque to this module, so it is
  embedded as the one-value type Ctx;
- the Python value stored in a Const node is embedded as CVal (the integer,
  the null value None, or a string: the variants the checked code manipulates);
- parent back-references are embedded as non-owning arena handles, Option Nat,
  on the node variants whose parents the checked code reads or writes.
-/

namespace Astroid

/-- The opaque inference-context token threaded through inference calls.
The module under verification never inspects it, so a one-value type. -/
def Ctx : Type := Unit

/-- Value stored in a Const node: an integer, the language null, or a string. -/
inductive CVal where
  | intv (z : Int)
  | nonev
  | strv (s : String)
deriving DecidableEq, Repr

/-- Exceptions that the modelled code can raise, carried as error values.
indexError and typeError and valueError correspond to the builtin exceptions
of the host language, inferenceError to exceptions.InferenceError, and
attributeError to calling a method on a node variant that lacks it. -/
inductive AstErr where
  | indexError
  | typeError
  | valueError
  | inferenceError
  | attributeError
deriving DecidableEq, Repr

/-- Shallow embedding of the node variants the checked claims exercise.
Source class names: const is Const, nlist is List, ntuple is Tuple, dict is
Dict (keys and values zipped into pairs), slice is Slice, dictUnpack is
DictUnpack, unknown is Unknown, nm is Name. The exp variant models an
arbitrary further expression node by the outcome of the external inference on
it: Option.none is a raised InferenceError, and a successful inference is a
first yielded candidate plus the remaining ones, each candidate being
Option.none for the Uninferable sentinel or some node. -/
inductive Node where
  | const (v : CVal) (parent : Option Nat)
  | nm (s : String)
  | unknown
  | dictUnpack
  | nlist (elts : List Node) (parent : Option Nat)
  | ntuple (elts : List Node) (parent : Option Nat)
  | dict (pairs : List (Node × Node))
  | slice (lower upper step : Option Node)
  | exp (outcome : Option (Option Node × List (Option Node)))

/-- Modelled from the spec: inference (the external inference module) is lazy
and multi-valued; literal and constant nodes infer to themselves, an Unknown
node yields exactly the cannot-determine sentinel (Unknown.infer in the
source), and a generic expression is modelled by the carried outcome. A run
either fails with InferenceError or yields at least one candidate, encoded as
head and tail. -/
def Node.infer (n : Node) (_ctx : Ctx) : Option (Option Node × List (Option Node)) :=
  match n with
  | Node.exp outcome => outcome
  | Node.unknown => some (Option.none, [])
  | _ => some (some n, [])

/-- The full inferred candidate sequence of a node, Option.none on a raised
InferenceError. -/
def inferSeq (n : Node) (ctx : Ctx) : Option (List (Option Node)) :=
  (Node.infer n ctx).map (fun ht => ht.1 :: ht.2)

/-- First inferred candidate, as consumed by a single next() step. -/
def inferFirst (n : Node) (ctx : Ctx) : Option (Option Node) :=
  (Node.infer n ctx).map (fun ht => ht.1)

/-- Result of resolving one slice bound: either the distinguished sentinel
(_SLICE_SENTINEL) or a usable value, where the value Option.none embeds the
language null used for an unspecified bound. -/
inductive SliceVal where
  | sentinel
  | val (v : Option Int)
deriving DecidableEq, Repr

/-- Embedding of _slice_value: a Const bound holding an integer gives that
integer, a Const holding the null gives the null, an absent bound gives the
null; any other bound gets one inference step, whose first candidate is
accepted only if it is a Const holding an integer or the null; every other
outcome, including a caught InferenceError, maps to the sentinel. -/
def sliceValue (index : Option Node) (ctx : Ctx) : SliceVal :=
  match index with
  | some (Node.const cv _) =>
    (match cv with
     | CVal.intv z => SliceVal.val (some z)
     | CVal.nonev => SliceVal.val Option.none
     | _ => SliceVal.sentinel)
  | Option.none => SliceVal.val Option.none
  | some idx =>
    match inferFirst idx ctx with
    | Option.none => SliceVal.sentinel
    | some cand =>
      match cand with
      | some (Node.const cv _) =>
        (match cv with
         | CVal.intv z => SliceVal.val (some z)
         | CVal.nonev => SliceVal.val Option.none
         | _ => SliceVal.sentinel)
      | _ => SliceVal.sentinel

/-- Claim-side restatement of slice-bound resolution, following the words of
the specification: a bound resolves to its value exactly when it is a literal
constant holding an integer or the absence-value, or is itself absent, or when
one step of inference yields such a constant; every other outcome maps to the
sentinel. Compared against sliceValue, which is the embedding of the code. -/
def boundSpecVal (index : Option Node) (ctx : Ctx) : SliceVal :=
  match index with
  | Option.none => SliceVal.val Option.none
  | some idx =>
    match idx with
    | Node.const (CVal.intv z) _ => SliceVal.val (some z)
    | Node.const CVal.nonev _ => SliceVal.val Option.none
    | _ =>
      match inferFirst idx ctx with
      | some (some (Node.const (CVal.intv z) _)) => SliceVal.val (some z)
      | some (some (Node.const CVal.nonev _)) => SliceVal.val Option.none
      | _ => SliceVal.sentinel

/-- Embedding of _infer_slice over the three bound fields of a Slice node:
succeeds with the resolved triple when no bound is the sentinel, and raises
TypeError (could not infer slice used in subscript) otherwise. -/
def inferSlice (lower upper step : Option Node) (ctx : Ctx) :
    Except AstErr (Option Int × Option Int × Option Int) :=
  match sliceValue lower ctx, sliceValue upper ctx, sliceValue step ctx with
  | SliceVal.val l, SliceVal.val u, SliceVal.val s => Except.ok (l, u, s)
  | _, _, _ => Except.error AstErr.typeError

/-- Language-native clamping of one explicit slice bound against a sequence
length, following the runtime semantics of the analyzed language (negative
bounds count from the end, bounds beyond the ends clamp to the nearest usable
position, with direction given by the sign of the step). -/
def pyAdjustIndex (len step i : Int) : Int :=
  if i < 0 then
    (if i + len < 0 then (if step < 0 then -1 else 0) else i + len)
  else if i ≥ len then (if step < 0 then len - 1 else len) else i

/-- Language-native start, stop and step of a slice over a sequence of the
given length: an absent step means 1, an absent start means the first element
in iteration order, an absent stop means one past the last. -/
def pySliceParams (lo up st : Option Int) (len : Int) : Int × Int × Int :=
  let step := st.getD 1
  let start :=
    match lo with
    | Option.none => if step < 0 then len - 1 else 0
    | some i => pyAdjustIndex len step i
  let stop :=
    match up with
    | Option.none => if step < 0 then -1 else len
    | some i => pyAdjustIndex len step i
  (start, stop, step)

/-- Number of elements selected by an adjusted slice. -/
def pySliceLen (start stop step : Int) : Nat :=
  if step < 0 then
    (if stop < start then ((start - stop - 1) / (-step) + 1).toNat else 0)
  else
    (if start < stop then ((stop - start - 1) / step + 1).toNat else 0)

/-- Elements of the sequence at positions start, start + step, and so on, for
the computed number of selected elements. -/
def pySliceElems (xs : List α) (start step : Int) (slen : Nat) : List α :=
  (List.range slen).filterMap (fun k => xs.get? (start + k * step).toNat)

/-- Language-native slicing of a sequence for a nonzero (or absent) step. -/
def pySliceCore (lo up st : Option Int) (xs : List α) : List α :=
  match pySliceParams lo up st xs.length with
  | (start, stop, step) => pySliceElems xs start step (pySliceLen start stop step)

/-- Language-native slicing of a sequence: a zero step raises ValueError. -/
def pySlice (lo up st : Option Int) (xs : List α) : Except AstErr (List α) :=
  if st = some 0 then Except.error AstErr.valueError
  else Except.ok (pySliceCore lo up st xs)

/-- Language-native indexing of a sequence by an integer: a negative index
counts from the end, and an index outside the sequence raises IndexError. -/
def pyIndex (xs : List α) (z : Int) : Except AstErr α :=
  if z < 0 then
    (if 0 ≤ z + (xs.length : Int) then
      (match xs.get? (z + (xs.length : Int)).toNat with
       | some a => Except.ok a
       | Option.none => Except.error AstErr.indexError)
     else Except.error AstErr.indexError)
  else
    (match xs.get? z.toNat with
     | some a => Except.ok a
     | Option.none => Except.error AstErr.indexError)

/-- Embedding of _container_getitem for a literal sequence container: a Slice
index is resolved through _infer_slice and a fresh container of the same
variant is built (mk is the class of the instance) holding the sliced
elements, its parent set to the parent of the original instance; a Const
index holding an integer selects one element with language-native semantics;
a Const index holding any other value, or any other index shape, raises
TypeError. -/
def containerGetitem (mk : List Node → Option Nat → Node) (elts : List Node)
    (parent : Option Nat) (index : Node) (ctx : Ctx) : Except AstErr Node :=
  match index with
  | Node.slice lo up st =>
    (match inferSlice lo up st ctx with
     | Except.error e => Except.error e
     | Except.ok (l, u, s) => (pySlice l u s elts).map (fun res => mk res parent))
  | Node.const (CVal.intv z) _ => pyIndex elts z
  | _ => Except.error AstErr.typeError

/-- Embedding of Const.getitem: the index value is taken from a Const index or
resolved from a Slice index (any other index shape raises TypeError); when the
constant holds a string the indexed character or sliced substring is wrapped
in a fresh Const with no parent; a constant of any other embedded kind raises
TypeError. -/
def constGetitem (v : CVal) (index : Node) (ctx : Ctx) : Except AstErr Node :=
  match index with
  | Node.const iv _ =>
    (match v, iv with
     | CVal.strv s, CVal.intv z =>
       (pyIndex s.toList z).map
         (fun c => Node.const (CVal.strv (String.mk [c])) Option.none)
     | _, _ => Except.error AstErr.typeError)
  | Node.slice lo up st =>
    (match inferSlice lo up st ctx with
     | Except.error e => Except.error e
     | Except.ok (l, u, s) =>
       match v with
       | CVal.strv s' =>
         (pySlice l u s s'.toList).map
           (fun cs => Node.const (CVal.strv (String.mk cs)) Option.none)
       | _ => Except.error AstErr.typeError)
  | _ => Except.error AstErr.typeError

/-- True for an inferred key candidate that is a Const structurally equal (by
value) to a Const lookup key; the Uninferable candidate and non-constant
candidates and a non-constant lookup key never match. -/
def keyMatches (cand : Option Node) (lookupKey : Node) : Bool :=
  match cand, lookupKey with
  | some (Node.const cv _), Node.const kv _ => decide (cv = kv)
  | _, _ => false

/-- Embedding of getitem across the container and constant variants.
For Dict the key and value lists are zipped into pairs and scanned in source
order (the loop over the remaining pairs is the recursive call on the Dict of
the remaining pairs): a DictUnpack key recurses into the getitem of its value,
a raised IndexError there moving the scan to the next pair while any other
outcome is returned as is; an ordinary key is inferred and the value is
returned on the first candidate matching the lookup key; a scan that exhausts
the pairs raises IndexError. List and Tuple delegate to _container_getitem and
Const to Const.getitem; the remaining variants have no getitem method, which
is a fatal attribute failure. -/
def getitem : Node → Node → Ctx → Except AstErr Node
  | Node.nlist elts p, index, ctx =>
    containerGetitem (fun es pr => Node.nlist es pr) elts p index ctx
  | Node.ntuple elts p, index, ctx =>
    containerGetitem (fun es pr => Node.ntuple es pr) elts p index ctx
  | Node.const v _, index, ctx => constGetitem v index ctx
  | Node.dict [], _, _ => Except.error AstErr.indexError
  | Node.dict ((k, v) :: rest), lookupKey, ctx =>
    (match k with
     | Node.dictUnpack =>
       (match getitem v lookupKey ctx with
        | Except.error AstErr.indexError => getitem (Node.dict rest) lookupKey ctx
        | r => r)
     | _ =>
       (match inferSeq k ctx with
        | Option.none => Except.error AstErr.inferenceError
        | some cands =>
          if cands.any (fun c => keyMatches c lookupKey) then Except.ok v
          else getitem (Node.dict rest) lookupKey ctx))
  | _, _, _ => Except.error AstErr.attributeError
termination_by n _ _ => sizeOf n
decreasing_by all_goals (simp_wf <;> omega)

/-- True when scanning Dict.getitem passes over this key-value pair without
returning: a DictUnpack pair whose recursive lookup raises IndexError, or an
ordinary pair whose key inference succeeds with no candidate matching the
lookup key. -/
def pairSkips (ctx : Ctx) (lookupKey : Node) : Node × Node → Bool
  | (Node.dictUnpack, v) =>
    (match getitem v lookupKey ctx with
     | Except.error AstErr.indexError => true
     | _ => false)
  | (k, _) =>
    (match inferSeq k ctx with
     | Option.none => false
     | some cands => !(cands.any (fun c => keyMatches c lookupKey)))

/-- Modelled from the spec: the else-branch span helper _elsed_block_range of
the external block-range mixin (tree/base.py, not part of the verified file).
Orelse is the else branch as the first and last line of its statements, absent
when there is no else branch. Delegating to the else-branch span yields the
span of the else branch when one exists: through its last line once the
queried line has reached the branch, and up to the line before the branch
starts otherwise; with no else branch the span runs from the supplied default
governing start through the queried line. -/
def elsedBlockRange (lineno : Int) (orelse : Option (Int × Int)) (last : Int) : Int × Int :=
  match orelse with
  | some (s, e) => if s ≤ lineno then (lineno, e) else (lineno, s - 1)
  | Option.none => (last, lineno)

/-- Line projections of an If node that block_range reads: the first line of
the first body statement, the last line of the last body statement, and the
first and last lines of the else branch when present. -/
structure IfLines where
  bodyStart : Int
  bodyEnd : Int
  orelse : Option (Int × Int)
deriving DecidableEq, Repr

/-- Embedding of If.block_range: the first body line is its own one-line span;
a line at most the last body line spans through the last body line; any later
line delegates to the else-branch span with the line before the first body
line as the default governing start. -/
def ifBlockRange (n : IfLines) (lineno : Int) : Int × Int :=
  if lineno = n.bodyStart then (lineno, lineno)
  else if lineno ≤ n.bodyEnd then (lineno, n.bodyEnd)
  else elsedBlockRange lineno n.orelse (n.bodyStart - 1)

/-- Line projections of an exception handler that TryExcept.block_range reads:
the first line of the matched-exception-type expression when the handler has
one, and the first and last lines of the handler body. -/
structure ExcHandler where
  typeLine : Option Int
  bodyStart : Int
  bodyEnd : Int
deriving DecidableEq, Repr

/-- Scan step of TryExcept.block_range over the handlers: a line equal to a
handler matched-exception-type line is its own one-line span, a line inside a
handler body spans through that body, and an exhausted scan delegates to the
else-branch span. The default governing start is fixed up front because the
loop in the source assigns it from the first handler only and never again. -/
def teScan (lineno : Int) (orelse : Option (Int × Int)) (last : Int) :
    List ExcHandler → Int × Int
  | [] => elsedBlockRange lineno orelse last
  | h :: hs =>
    if h.typeLine = some lineno then (lineno, lineno)
    else if h.bodyStart ≤ lineno ∧ lineno ≤ h.bodyEnd then (lineno, h.bodyEnd)
    else teScan lineno orelse last hs

/-- Embedding of TryExcept.block_range; a try-except statement always carries
at least one handler, embedded as a first handler plus the remaining ones. -/
def tryExceptBlockRange (h0 : ExcHandler) (rest : List ExcHandler)
    (orelse : Option (Int × Int)) (lineno : Int) : Int × Int :=
  teScan lineno orelse (h0.bodyStart - 1) (h0 :: rest)

/-- Claim-side description of how one handler treats a line: its own one-line
span on the matched-exception-type line, a span through the handler body for a
line inside it, and no span otherwise. -/
def handlerSpan (lineno : Int) (h : ExcHandler) : Option (Int × Int) :=
  if h.typeLine = some lineno then some (lineno, lineno)
  else if h.bodyStart ≤ lineno ∧ lineno ≤ h.bodyEnd then some (lineno, h.bodyEnd)
  else Option.none

/-- One possible element of the result sequence of operator inference: the
typed bad-operation markers (util.BadBinaryOperationMessage and
util.BadUnaryOperationMessage) or an ordinary inferred value, the latter
being the Uninferable sentinel when Option.none. -/
inductive OpResult where
  | badBinaryOp
  | badUnaryOp
  | val (n : Option Node)

/-- True for the marker util.BadBinaryOperationMessage. -/
def isBadBinary : OpResult → Bool
  | OpResult.badBinaryOp => true
  | _ => false

/-- True for the marker util.BadUnaryOperationMessage. -/
def isBadUnary : OpResult → Bool
  | OpResult.badUnaryOp => true
  | _ => false

/-- Embedding of BinOp.type_errors. The inference of the node itself is done
by the external inference module; its outcome is passed as the argument,
Option.none when an InferenceError escapes the whole run. The method keeps
exactly the bad-binary-operation markers of the result sequence and returns
the empty list when inference fails. -/
def binOpTypeErrors (results : Option (List OpResult)) : List OpResult :=
  match results with
  | Option.none => []
  | some rs => rs.filter isBadBinary

/-- Embedding of UnaryOp.type_errors, keeping the bad-unary-operation
markers; see binOpTypeErrors for the conventions. -/
def unaryOpTypeErrors (results : Option (List OpResult)) : List OpResult :=
  match results with
  | Option.none => []
  | some rs => rs.filter isBadUnary

/-- Embedding of AugAssign.type_errors, which also keeps the
bad-binary-operation markers; see binOpTypeErrors for the conventions. -/
def augAssignTypeErrors (results : Option (List OpResult)) : List OpResult :=
  match results with
  | Option.none => []
  | some rs => rs.filter isBadBinary

/-- Claim-side first-match scan over the handlers: the span assigned by the
earliest handler that claims the line, if any. -/
def firstHandlerSpan (lineno : Int) : List ExcHandler → Option (Int × Int)
  | [] => Option.none
  | h :: hs =>
    match handlerSpan lineno h with
    | some r => some r
    | Option.none => firstHandlerSpan lineno hs

/-- True for a constant node. -/
def isConst : Node → Bool
  | Node.const _ _ => true
  | _ => false

/-- True for a slice node. -/
def isSlice : Node → Bool
  | Node.slice _ _ _ => true
  | _ => false

/-- True for a plain constant or plain name node. -/
def isConstOrName : Node → Bool
  | Node.const _ _ => true
  | Node.nm _ => true
  | _ => false

/-- Embedding of Comprehension._get_filtered_stmts. Object identities (the
clause being the lookup assignment statement itself, and the enclosing
statement of the clause being that statement) are embedded as the two boolean
arguments. When the clause is the lookup assignment statement and the lookup
node is a plain constant or plain name, that node is returned verbatim as a
one-element terminating result; when instead the enclosing statement is the
lookup assignment statement, the current node alone is returned terminating;
otherwise the incoming statements continue the filter. -/
def getFilteredStmts (selfIsMystmt stmtIsMystmt : Bool) (lookupNode node : Node)
    (stmts : List Node) : List Node × Bool :=
  if selfIsMystmt then
    (if isConstOrName lookupNode then ([lookupNode], true) else (stmts, false))
  else if stmtIsMystmt then ([node], true)
  else (stmts, false)

/-- Sample constant node holding 10, used by the concrete instances. -/
def sampleA : Node := Node.const (CVal.intv 10) Option.none

/-- Sample constant node holding 20, used by the concrete instances. -/
def sampleB : Node := Node.const (CVal.intv 20) Option.none

/-- Sample constant node holding 30, used by the concrete instances. -/
def sampleC : Node := Node.const (CVal.intv 30) Option.none

/-- Sample constant lookup key holding 1, used by the concrete instances. -/
def sampleKey1 : Node := Node.const (CVal.intv 1) Option.none

/-- Sample constant lookup key holding 2, used by the concrete instances. -/
def sampleKey2 : Node := Node.const (CVal.intv 2) Option.none

/-- C10: for every inference context, inference on the Unknown placeholder
node produces a sequence holding exactly one element, the cannot-determine
sentinel, and nothing else: the run terminates immediately. -/
theorem unknown_infer_uninferable (ctx : Ctx) :
    inferSeq Node.unknown ctx = some [Option.none] := rfl

/-- C7: for binary-operation, unary-operation and augmented-assignment nodes,
type_errors returns exactly the elements of the inferred result sequence that
are the typed bad-operation markers of that node kind and nothing else, and
returns the empty list when the whole inference fails with InferenceError
(embedded as the absent result sequence). -/
theorem type_errors_exactly_markers (rs : List OpResult) (r : OpResult) :
    (r ∈ binOpTypeErrors (some rs) ↔ r ∈ rs ∧ isBadBinary r = true) ∧
    binOpTypeErrors Option.none = [] ∧
    (r ∈ unaryOpTypeErrors (some rs) ↔ r ∈ rs ∧ isBadUnary r = true) ∧
    unaryOpTypeErrors Option.none = [] ∧
    (r ∈ augAssignTypeErrors (some rs) ↔ r ∈ rs ∧ isBadBinary r = true) ∧
    augAssignTypeErrors Option.none = [] := by
  refine ⟨?_, rfl, ?_, rfl, ?_, rfl⟩ <;>
    simp [binOpTypeErrors, unaryOpTypeErrors, augAssignTypeErrors, List.mem_filter]

/-- C9: in the comprehension filtered-statements step, when the clause is the
lookup assignment statement itself (the lookup originates inside the
comprehension scope) and the lookup node is a plain constant or plain name,
the step returns exactly that lookup node verbatim as a one-element result
with the terminating flag set. -/
theorem comprehension_filtered_verbatim (stmtIsMystmt : Bool) (lookupNode node : Node)
    (stmts : List Node) (h : isConstOrName lookupNode = true) :
    getFilteredStmts true stmtIsMystmt lookupNode node stmts = ([lookupNode], true) := by
  simp [getFilteredStmts, h]

/-- Witness for C9 at a plain-name lookup node. -/
theorem comprehension_filtered_verbatim_witness :
    isConstOrName (Node.nm "x") = true ∧
    getFilteredStmts true false (Node.nm "x") Node.unknown [] = ([Node.nm "x"], true) :=
  ⟨rfl, comprehension_filtered_verbatim false (Node.nm "x") Node.unknown [] rfl⟩

/-- C2: each slice bound resolves exactly as the claim describes it (the
claim-side boundSpecVal agrees with the embedded _slice_value everywhere),
and resolving the whole slice fails with the not-a-valid-slice TypeError if
and only if at least one of the three bounds is the sentinel. -/
theorem slice_bound_resolution (lo up st b : Option Node) (ctx : Ctx) :
    sliceValue b ctx = boundSpecVal b ctx ∧
    (inferSlice lo up st ctx = Except.error AstErr.typeError ↔
      (sliceValue lo ctx = SliceVal.sentinel ∨ sliceValue up ctx = SliceVal.sentinel ∨
        sliceValue st ctx = SliceVal.sentinel)) := by
  constructor
  · cases b with
    | none => rfl
    | some idx =>
      cases idx with
      | const cv p => cases cv <;> rfl
      | exp outcome =>
        rcases outcome with _ | ⟨c, t⟩
        · rfl
        · rcases c with _ | n
          · rfl
          · cases n with
            | const cv p => cases cv <;> rfl
            | _ => rfl
      | _ => rfl
  · rcases h1 : sliceValue lo ctx with _ | v1 <;>
      rcases h2 : sliceValue up ctx with _ | v2 <;>
      rcases h3 : sliceValue st ctx with _ | v3 <;>
      simp [inferSlice, h1, h2, h3]

/-- Counterexample for C5 as stated: on a conditional whose body occupies
lines 12 through 15 (the test ending on line 11) with no else branch, the
query line 11 is neither the first body line nor within the body, so the
claim prescribes delegation to the else-branch span with default governing
start 11, which yields (11, 11); the code instead answers (11, 15) because it
only compares the line against the last body line. -/
theorem if_block_range_before_body_counterexample :
    ifBlockRange ⟨12, 15, Option.none⟩ 11 = (11, 15) ∧
    elsedBlockRange 11 Option.none (12 - 1) = (11, 11) ∧
    ifBlockRange ⟨12, 15, Option.none⟩ 11 ≠ elsedBlockRange 11 Option.none (12 - 1) := by
  refine ⟨rfl, rfl, ?_⟩
  decide

/-- C5 as amended: block_range on a conditional returns (line, line) when the
line equals the first body line; returns (line, last-body-line) whenever the
line differs from the first body line and is at most the last body line,
which includes lines before the body such as the test lines; and delegates to
the else-branch span with default governing start one line before the first
body line only when the line exceeds the last body line. On a conditional
with body lines 10 through 15 and no else branch, block_range 12 is (12, 15)
and block_range 18 is the span starting at line 9. -/
theorem if_block_range_spec (n : IfLines) (line : Int) :
    (line = n.bodyStart → ifBlockRange n line = (line, line)) ∧
    (line ≠ n.bodyStart → line ≤ n.bodyEnd → ifBlockRange n line = (line, n.bodyEnd)) ∧
    (line ≠ n.bodyStart → n.bodyEnd < line →
      ifBlockRange n line = elsedBlockRange line n.orelse (n.bodyStart - 1)) ∧
    ifBlockRange ⟨10, 15, Option.none⟩ 12 = (12, 15) ∧
    ifBlockRange ⟨10, 15, Option.none⟩ 18 = (9, 18) := by
  refine ⟨?_, ?_, ?_, rfl, rfl⟩
  · intro h
    simp [ifBlockRange, h]
  · intro h1 h2
    simp [ifBlockRange, h1, h2]
  · intro h1 h2
    simp [ifBlockRange, h1, not_le.mpr h2]

/-- Witness for C5 as amended, at a line inside the body. -/
theorem if_block_range_spec_witness :
    ifBlockRange ⟨10, 15, Option.none⟩ 12 = (12, 15) :=
  (if_block_range_spec ⟨10, 15, Option.none⟩ 12).2.1 (by decide) (by decide)

/-- C6: block_range on a try-except statement scans the exception handlers in
order: the earliest handler that claims the line decides the span (its own
one-line span on the matched-exception-type line, a span through the handler
body for a line inside it), and a line claimed by no handler delegates to the
else-branch span with the line before the first handler body as the default
governing start. -/
theorem try_except_block_range_scan (h0 : ExcHandler) (rest : List ExcHandler)
    (orelse : Option (Int × Int)) (line : Int) :
    tryExceptBlockRange h0 rest orelse line =
      (match firstHandlerSpan line (h0 :: rest) with
       | some r => r
       | Option.none => elsedBlockRange line orelse (h0.bodyStart - 1)) := by
  have key : ∀ (l : List ExcHandler) (last : Int),
      teScan line orelse last l =
        (match firstHandlerSpan line l with
         | some r => r
         | Option.none => elsedBlockRange line orelse last) := by
    intro l last
    induction l with
    | nil => rfl
    | cons h hs ih =>
      simp only [teScan, firstHandlerSpan, handlerSpan]
      by_cases ht : h.typeLine = some line
      · simp [ht]
      · by_cases hb : h.bodyStart ≤ line ∧ line ≤ h.bodyEnd
        · simp [ht, hb]
        · simp [ht, hb, ih]
  exact key (h0 :: rest) (h0.bodyStart - 1)

/-- Counterexample for C3 as stated: the slice with absent bounds and the
constant step 0 has all three bounds resolving to constants, yet getitem on a
literal list raises the language-native zero-step ValueError instead of
returning a container. -/
theorem container_slice_zero_step_counterexample :
    inferSlice Option.none Option.none (some (Node.const (CVal.intv 0) Option.none)) () =
      Except.ok (Option.none, Option.none, some 0) ∧
    getitem (Node.nlist [sampleA] Option.none)
        (Node.slice Option.none Option.none (some (Node.const (CVal.intv 0) Option.none))) () =
      Except.error AstErr.valueError := by
  constructor
  · rfl
  · simp [getitem, containerGetitem, inferSlice, sliceValue, pySlice, Except.map]

/-- C3 as amended: for a literal sequence container and a slice index whose
bounds resolve to constants with a nonzero (or absent) resolved step, getitem
returns a freshly built container of the same variant whose elements are the
language-native slice of the original elements and whose parent handle is the
parent of the original container, not the original container itself. -/
theorem container_slice_getitem (elts : List Node) (p : Option Nat)
    (lo up st : Option Node) (ctx : Ctx) (l u s : Option Int)
    (hres : inferSlice lo up st ctx = Except.ok (l, u, s)) (hs : s ≠ some 0) :
    getitem (Node.nlist elts p) (Node.slice lo up st) ctx =
      Except.ok (Node.nlist (pySliceCore l u s elts) p) ∧
    getitem (Node.ntuple elts p) (Node.slice lo up st) ctx =
      Except.ok (Node.ntuple (pySliceCore l u s elts) p) := by
  constructor <;> simp [getitem, containerGetitem, hres, pySlice, hs, Except.map]

/-- Witness for C3 as amended, slicing a three-element list up to index 2. -/
theorem container_slice_getitem_witness :
    getitem (Node.nlist [sampleA, sampleB, sampleC] (some 7))
        (Node.slice Option.none (some (Node.const (CVal.intv 2) Option.none)) Option.none) () =
      Except.ok (Node.nlist
        (pySliceCore Option.none (some 2) Option.none [sampleA, sampleB, sampleC]) (some 7)) :=
  (container_slice_getitem [sampleA, sampleB, sampleC] (some 7)
    Option.none (some (Node.const (CVal.intv 2) Option.none)) Option.none ()
    Option.none (some 2) Option.none rfl (by decide)).1

/-- C4: for a literal sequence container and an integer constant index,
getitem returns the element at that position unchanged when the index is in
range, with a negative index counting from the end; raises IndexError when
the index is out of range; and an index that is neither a constant nor a
slice raises TypeError instead of producing a sequence element. -/
theorem container_const_index_getitem (elts : List Node) (p q : Option Nat)
    (z : Int) (ctx : Ctx) (e : Node) (idx : Node) :
    (0 ≤ z → elts.get? z.toNat = some e →
      getitem (Node.nlist elts p) (Node.const (CVal.intv z) q) ctx = Except.ok e) ∧
    (z < 0 → 0 ≤ z + (elts.length : Int) →
      elts.get? (z + (elts.length : Int)).toNat = some e →
      getitem (Node.nlist elts p) (Node.const (CVal.intv z) q) ctx = Except.ok e) ∧
    ((elts.length : Int) ≤ z ∨ z + (elts.length : Int) < 0 →
      getitem (Node.nlist elts p) (Node.const (CVal.intv z) q) ctx =
        Except.error AstErr.indexError) ∧
    (isConst idx = false → isSlice idx = false →
      getitem (Node.nlist elts p) idx ctx = Except.error AstErr.typeError) ∧
    (0 ≤ z → elts.get? z.toNat = some e →
      getitem (Node.ntuple elts p) (Node.const (CVal.intv z) q) ctx = Except.ok e) ∧
    (z < 0 → 0 ≤ z + (elts.length : Int) →
      elts.get? (z + (elts.length : Int)).toNat = some e →
      getitem (Node.ntuple elts p) (Node.const (CVal.intv z) q) ctx = Except.ok e) ∧
    ((elts.length : Int) ≤ z ∨ z + (elts.length : Int) < 0 →
      getitem (Node.ntuple elts p) (Node.const (CVal.intv z) q) ctx =
        Except.error AstErr.indexError) ∧
    (isConst idx = false → isSlice idx = false →
      getitem (Node.ntuple elts p) idx ctx = Except.error AstErr.typeError) := by
  have hpos : 0 ≤ z → elts.get? z.toNat = some e → pyIndex elts z = Except.ok e := by
    intro h1 h2
    unfold pyIndex
    rw [if_neg (not_lt.mpr h1), h2]
  have hneg : z < 0 → 0 ≤ z + (elts.length : Int) →
      elts.get? (z + (elts.length : Int)).toNat = some e → pyIndex elts z = Except.ok e := by
    intro h1 h2 h3
    unfold pyIndex
    rw [if_pos h1, if_pos h2, h3]
  have hoor : (elts.length : Int) ≤ z ∨ z + (elts.length : Int) < 0 →
      pyIndex elts z = Except.error AstErr.indexError := by
    rintro (h1 | h1)
    · have hz : ¬ z < 0 := by omega
      have hnone : elts.get? z.toNat = Option.none := by
        rw [List.get?_eq_none]
        omega
      unfold pyIndex
      rw [if_neg hz, hnone]
    · have hz : z < 0 := by omega
      have h2 : ¬ 0 ≤ z + (elts.length : Int) := by omega
      unfold pyIndex
      rw [if_pos hz, if_neg h2]
  have hbad : isConst idx = false → isSlice idx = false →
      ∀ mk : List Node → Option Nat → Node,
        containerGetitem mk elts p idx ctx = Except.error AstErr.typeError := by
    intro h1 h2 mk
    cases idx <;> simp_all [containerGetitem, isConst, isSlice]
  refine ⟨?_, ?_, ?_, ?_, ?_, ?_, ?_, ?_⟩ <;>
    first
      | (intro h1 h2; simp [getitem, containerGetitem]; exact hpos h1 h2)
      | (intro h1 h2 h3; simp [getitem, containerGetitem]; exact hneg h1 h2 h3)
      | (intro h1; simp [getitem, containerGetitem]; exact hoor h1)
      | (intro h1 h2; simp [getitem]; exact hbad h1 h2 _)

/-- Witness for C4: an end-relative index, an out-of-range index, and a plain
name used as index, on concrete containers. -/
theorem container_const_index_getitem_witness :
    getitem (Node.nlist [sampleA, sampleB, sampleC] Option.none)
        (Node.const (CVal.intv (-1)) Option.none) () = Except.ok sampleC ∧
    getitem (Node.ntuple [sampleA] Option.none)
        (Node.const (CVal.intv 5) Option.none) () = Except.error AstErr.indexError ∧
    getitem (Node.nlist [sampleA] Option.none) (Node.nm "i") () =
      Except.error AstErr.typeError :=
  ⟨(container_const_index_getitem [sampleA, sampleB, sampleC] Option.none Option.none
      (-1) () sampleC (Node.nm "i")).2.1 (by decide) (by decide) rfl,
   (container_const_index_getitem [sampleA] Option.none Option.none
      5 () sampleA (Node.nm "i")).2.2.2.2.2.2.1 (by decide),
   (container_const_index_getitem [sampleA] Option.none Option.none
      5 () sampleA (Node.nm "i")).2.2.2.1 rfl rfl⟩

/-- Scanning lemma for Dict.getitem: a pair the scan passes over does not
change the lookup outcome over the remaining pairs. -/
theorem dict_scan_skip (ctx : Ctx) (lookupKey k v : Node) (l : List (Node × Node))
    (h : pairSkips ctx lookupKey (k, v) = true) :
    getitem (Node.dict ((k, v) :: l)) lookupKey ctx =
      getitem (Node.dict l) lookupKey ctx := by
  cases k
  case dictUnpack =>
    simp only [pairSkips] at h
    split at h
    · simp [getitem, *]
    · exact absurd h (by simp)
  all_goals
    simp only [pairSkips] at h
    split at h
    · exact absurd h (by simp)
    · simp only [Bool.not_eq_true'] at h
      simp [getitem, *]

/-- C1: in a mapping-literal lookup with a constant lookup key, the key-value
pairs are scanned in source order and the value of the earliest pair whose
key infers to a constant structurally equal to the lookup key is returned; in
particular with duplicate equal constant keys the earliest one wins, whatever
pairs follow it. -/
theorem dict_getitem_first_match (ctx : Ctx) (c : CVal) (q p : Option Nat) (v : Node)
    (pre rest : List (Node × Node))
    (hpre : pre.all (pairSkips ctx (Node.const c q)) = true) :
    getitem (Node.dict (pre ++ (Node.const c p, v) :: rest)) (Node.const c q) ctx =
      Except.ok v := by
  revert hpre
  induction pre with
  | nil =>
    intro _
    simp [getitem, inferSeq, Node.infer, keyMatches]
  | cons pr pre ih =>
    intro hpre
    rw [List.all_cons, Bool.and_eq_true] at hpre
    rcases pr with ⟨k0, v0⟩
    rw [List.cons_append, dict_scan_skip ctx (Node.const c q) k0 v0 _ hpre.1]
    exact ih hpre.2

/-- Witness for C1: the dictionary with pairs 2 to 10, 1 to 20, 1 to 30 looked
up with the constant key 1 returns 20, the value of the earliest pair with a
matching key, not 30. -/
theorem dict_getitem_first_match_witness :
    List.all [(sampleKey2, sampleA)] (pairSkips () sampleKey1) = true ∧
    getitem
        (Node.dict ([(sampleKey2, sampleA)] ++ (sampleKey1, sampleB) :: [(sampleKey1, sampleC)]))
        sampleKey1 () = Except.ok sampleB :=
  ⟨by decide,
   dict_getitem_first_match () (CVal.intv 1) Option.none Option.none sampleB
     [(sampleKey2, sampleA)] [(sampleKey1, sampleC)] (by decide)⟩

/-- C8: a mapping-literal pair whose key is the unpack marker recurses the
lookup into the getitem of the unpacked value, a raised IndexError there
moving the scan to the next pair while a successful recursive lookup answers
the whole lookup; a scan in which no pair matches at all raises the not-found
IndexError, a condition distinct from the undetermined-inference
InferenceError. -/
theorem dict_getitem_unpack_and_not_found (ctx : Ctx) (v r key : Node)
    (rest pairs : List (Node × Node)) :
    (getitem v key ctx = Except.error AstErr.indexError →
      getitem (Node.dict ((Node.dictUnpack, v) :: rest)) key ctx =
        getitem (Node.dict rest) key ctx) ∧
    (getitem v key ctx = Except.ok r →
      getitem (Node.dict ((Node.dictUnpack, v) :: rest)) key ctx = Except.ok r) ∧
    (pairs.all (pairSkips ctx key) = true →
      getitem (Node.dict pairs) key ctx = Except.error AstErr.indexError) ∧
    AstErr.indexError ≠ AstErr.inferenceError := by
  refine ⟨?_, ?_, ?_, by decide⟩
  · intro h
    simp [getitem, h]
  · intro h
    simp [getitem, h]
  · intro h
    revert h
    induction pairs with
    | nil =>
      intro _
      simp [getitem]
    | cons pr pairs ih =>
      intro h
      rw [List.all_cons, Bool.and_eq_true] at h
      rcases pr with ⟨k0, v0⟩
      rw [dict_scan_skip ctx key k0 v0 _ h.1]
      exact ih h.2

/-- Witness for C8: an unpack of the empty dictionary is skipped, an unpack
holding the key answers the lookup, and a dictionary without the key raises
IndexError. -/
theorem dict_getitem_unpack_and_not_found_witness :
    getitem (Node.dict [(Node.dictUnpack, Node.dict []), (sampleKey1, sampleA)]) sampleKey1 () =
      getitem (Node.dict [(sampleKey1, sampleA)]) sampleKey1 () ∧
    getitem (Node.dict [(Node.dictUnpack, Node.dict [(sampleKey1, sampleB)])]) sampleKey1 () =
      Except.ok sampleB ∧
    getitem (Node.dict [(sampleKey2, sampleA)]) sampleKey1 () =
      Except.error AstErr.indexError :=
  ⟨(dict_getitem_unpack_and_not_found () (Node.dict []) sampleA sampleKey1
      [(sampleKey1, sampleA)] []).1 (by simp [getitem]),
   (dict_getitem_unpack_and_not_found () (Node.dict [(sampleKey1, sampleB)]) sampleB sampleKey1
      [] []).2.1 (by simp [getitem, inferSeq, Node.infer, keyMatches, sampleKey1, sampleB]),
   (dict_getitem_unpack_and_not_found () (Node.dict []) sampleA sampleKey1
      [] [(sampleKey2, sampleA)]).2.2.1 (by decide)⟩

end Astroid
